import Mathlib

/-
Verification of the Text2Image layout and shadow-colorization code
(src/text2image.py and src/t2i.py) via a shallow embedding.

Modelling conventions:
* Python ints are ℤ (image sizes are ℕ where the source guarantees it).
* Python floats are modelled with exact rational arithmetic (ℚ); the
  conversion int(f) on a float is pyint (truncation toward zero).  Every
  concrete input used in a counterexample or witness was chosen so that
  the double-precision computation of CPython agrees with the exact
  rational one (all intermediate values are either exactly representable
  or far from an integer boundary).
* Python // on ints is floor division, Int.fdiv.
* Pixel stores through Pillow's pixel-access protocol clamp each channel
  to [0,255] (the CLIP8 conversion in Pillow's getink); this is modelled
  by storePixel.
* Stateful code (in-place image mutation) is modelled by explicit state
  passing over a heap of image buffers.
-/

namespace Text2Image

/-- Truncation toward zero of a rational, the behaviour of Python's
int() applied to a (here: exactly represented) float: the numerator
divided by the (positive) denominator, rounding toward zero. -/
def pyint (q : ℚ) : ℤ := q.num.tdiv q.den

/-- An RGB color triple, channels in [0,255] (src/text2image.py RGBColor). -/
def RGBColor := ℕ × ℕ × ℕ

/-- An RGBA pixel as read from / written to a Pillow RGBA image. -/
structure Pixel where
  r : ℕ
  g : ℕ
  b : ℕ
  a : ℕ
deriving DecidableEq, Repr

/-- Clamp of a channel value to [0,255]: the CLIP8 conversion Pillow
applies in getink when a pixel value is stored through pixel access. -/
def clip8 (z : ℤ) : ℕ := (min (max z 0) 255).toNat

/-- The raw ints computed by colorize_image (src/text2image.py lines
96-102) before the pixel store: average_color = (r+g+b)/255.0 and each
channel int(color[i]*average_color); the alpha channel is passed through. -/
def colorizedInk (c : RGBColor) (p : Pixel) : ℤ × ℤ × ℤ × ℤ :=
  let average_color : ℚ := ((p.r : ℚ) + p.g + p.b) / 255
  (pyint (c.1 * average_color),
   pyint (c.2.1 * average_color),
   pyint (c.2.2 * average_color),
   (p.a : ℤ))

/-- The pixel store image_pixels[i,j] = ink (line 97): Pillow clamps
each component to [0,255] (CLIP8 in getink). -/
def storePixel (ink : ℤ × ℤ × ℤ × ℤ) : Pixel :=
  ⟨clip8 ink.1, clip8 ink.2.1, clip8 ink.2.2.1, clip8 ink.2.2.2⟩

/-- The per-pixel effect of colorize_image (src/text2image.py lines 90-103). -/
def colorizePixel (c : RGBColor) (p : Pixel) : Pixel :=
  storePixel (colorizedInk c p)

/-- An image buffer: rows of pixels. -/
def Img := List (List Pixel)
deriving DecidableEq

/-- colorize_image as a transformation of the buffer contents: sets every
pixel of the image to color*average_pixel_color (lines 90-103, the
double loop over all pixels). -/
def colorize_image (c : RGBColor) (img : Img) : Img :=
  List.map (fun row => List.map (colorizePixel c) row) img

/-- px (src/text2image.py line 42): identity on pixels. -/
def px (x : ℤ) : ℤ := x

/-- pt (src/text2image.py line 43): int(x * (96.0/72.0)); the float
96.0/72.0 is modelled by the exact rational 96/72. -/
def pt (x : ℤ) : ℤ := pyint ((x : ℚ) * (96 / 72))

/-- A CLI measure argument after its integer part has been parsed:
either "Npx", "Npt", or a bare integer (src/t2i.py lines 28-35). -/
inductive MeasureArg where
  | pxOf (n : ℤ)
  | ptOf (n : ℤ)
  | rawOf (n : ℤ)
deriving DecidableEq

/-- any_measure_type (src/t2i.py lines 28-35): dispatches on the px/pt
suffix of the measure string. -/
def any_measure_type : MeasureArg → ℤ
  | MeasureArg.pxOf n => px n
  | MeasureArg.ptOf n => pt n
  | MeasureArg.rawOf n => n

/-- ratio_type (src/t2i.py lines 46-54), modelled on the list of float
components obtained by splitting the argument string on the slash and
parsing each with float(); a raise becomes an error value. -/
def ratio_type (comps : List ℚ) : Except String ℚ :=
  match comps with
  | [a] => Except.ok a
  | [a, b] =>
    if b = 0 then Except.error "Ratio has division by 0."
    else Except.ok (a / b)
  | _ => Except.error "Ratio must be either a float or a pair of floats separated by /."

/-- Baseline alignment mode (the three values accepted by
generate_text_image; any other string raises, line 332). -/
inductive BaselineAlignment where
  | none
  | broad
  | perfect
deriving DecidableEq

/-- The mutable layout variables x, y, width, height of
generate_text_image (src/text2image.py lines 274-346). -/
structure LayoutState where
  x : ℤ
  y : ℤ
  width : ℤ
  height : ℤ
deriving DecidableEq, Repr

attribute [ext] LayoutState

/-- is_multiline (line 246): whether the text contains a newline. -/
def isMultilineOf (text : List Char) : Bool := decide ('\n' ∈ text)

/-- The effective shadow offset: when no shadow is present the code sets
shadow_offset to (0,0) (lines 266-268). -/
def effShadowOffset (shadowOn : Bool) (off : ℤ × ℤ) : ℤ × ℤ :=
  if shadowOn then off else (0, 0)

/-- The padding override (lines 270-272): a combined padding replaces
padx and pady with its symmetric expansion. -/
def effPads (padx pady : ℤ × ℤ) (padding : Option (ℤ × ℤ)) : (ℤ × ℤ) × (ℤ × ℤ) :=
  match padding with
  | some p => ((p.1, p.1), (p.2, p.2))
  | Option.none => (padx, pady)

/-- Base placement (lines 274-277): origin at the top-left padding,
canvas the text image extended by the padding on each side. -/
def baseState (textW textH : ℕ) (padx pady : ℤ × ℤ) : LayoutState :=
  ⟨padx.1, pady.1, (textW : ℤ) + padx.1 + padx.2, (textH : ℤ) + pady.1 + pady.2⟩

/-- Shadow extension (lines 278-289): if a shadow exists, widen each axis
by the offset, shifting the origin when the offset is negative. -/
def shadowStep (shadowOn : Bool) (off : ℤ × ℤ) (s : LayoutState) : LayoutState :=
  match shadowOn with
  | true =>
    let s1 :=
      if 0 ≤ off.1 then { s with width := s.width + off.1 }
      else { s with x := s.x - off.1, width := s.width - off.1 }
    if 0 ≤ off.2 then { s1 with height := s1.height + off.2 }
    else { s1 with y := s1.y - off.2, height := s1.height - off.2 }
  | false => s

/-- Minimum-size growth (lines 291-298): width grows when width <
min_width, height grows when height ≤ min_height (note the asymmetric
comparison), each centering the growth with floor division by 2. -/
def minSizeStep (minSize : Option (ℤ × ℤ)) (s : LayoutState) : LayoutState :=
  match minSize with
  | Option.none => s
  | some ms =>
    let s1 :=
      if s.width < ms.1 then
        { s with x := s.x + (ms.1 - s.width).fdiv 2, width := ms.1 }
      else s
    if s1.height ≤ ms.2 then
      { s1 with y := s1.y + (ms.2 - s1.height).fdiv 2, height := ms.2 }
    else s1

/-- Variant of the minimum-size step written with the symmetric strict
comparison height < min_height instead of the source's height ≤
min_height; stated from the spec's words for the refinement claim about
the boundary height == minHeight. -/
def minSizeStepLt (minSize : Option (ℤ × ℤ)) (s : LayoutState) : LayoutState :=
  match minSize with
  | Option.none => s
  | some ms =>
    let s1 :=
      if s.width < ms.1 then
        { s with x := s.x + (ms.1 - s.width).fdiv 2, width := ms.1 }
      else s
    if s1.height < ms.2 then
      { s1 with y := s1.y + (ms.2 - s1.height).fdiv 2, height := ms.2 }
    else s1

/-- Fallback aspect ratio (lines 299-300): if aspect_ratio is None and
min_height is nonzero, derive it as min_width/min_height. -/
def deriveAspect (aspect : Option ℚ) (minSize : Option (ℤ × ℤ)) : Option ℚ :=
  match aspect, minSize with
  | Option.none, some ms =>
    if ms.2 ≠ 0 then some ((ms.1 : ℚ) / (ms.2 : ℚ)) else Option.none
  | a, _ => a

/-- The desired width of the aspect-ratio step (line 303). -/
def aspectDW (ar : ℚ) (s : LayoutState) : ℤ :=
  max (pyint ((s.height : ℚ) * ar)) s.width

/-- The desired height of the aspect-ratio step (line 304). -/
def aspectDH (ar : ℚ) (s : LayoutState) : ℤ :=
  max (pyint ((s.width : ℚ) / ar)) s.height

/-- Aspect-ratio fitting (lines 302-320): runs only when the ratio is set
and positive; grows the dimension needing the larger growth and
recomputes the other one by the ratio, truncating toward zero. -/
def aspectStep (aspect : Option ℚ) (s : LayoutState) : LayoutState :=
  match aspect with
  | Option.none => s
  | some ar =>
    if 0 < ar then
      let dw := aspectDW ar s
      let dh := aspectDH ar s
      if dh < dw then
        let nh := pyint ((dw : ℚ) / ar)
        ⟨s.x + (dw - s.width).fdiv 2, s.y + (nh - s.height).fdiv 2, dw, nh⟩
      else
        let nw := pyint ((dh : ℚ) * ar)
        ⟨s.x + (nw - s.width).fdiv 2, s.y + (dh - s.height).fdiv 2, nw, dh⟩
    else s

/-- Baseline alignment (lines 325-346): single-line text only; computes a
baseline offset by mode and clamps the new y between the padded,
shadow-aware bounds. -/
def baselineStep (isMultiline : Bool) (ba : BaselineAlignment) (textH : ℕ)
    (descent : ℤ) (pady : ℤ × ℤ) (eo : ℤ × ℤ) (s : LayoutState) : LayoutState :=
  match isMultiline with
  | true => s
  | false =>
    match ba with
    | BaselineAlignment.none => s
    | BaselineAlignment.broad =>
      let off := descent.fdiv 2
      let lower := pady.1 - min 0 eo.2
      let upper := s.height - (pady.2 + (textH : ℤ) + max 0 eo.2)
      { s with y := min (max (s.y + off) lower) upper }
    | BaselineAlignment.perfect =>
      let off := descent - (textH : ℤ).fdiv 2
      let lower := pady.1 - min 0 eo.2
      let upper := s.height - (pady.2 + (textH : ℤ) + max 0 eo.2)
      { s with y := min (max (s.y + off) lower) upper }

/-- All inputs of generate_text_image that the layout depends on.  textW,
textH and textDescent stand for the size and descent of the text image
produced by new_image_from_text (Pillow font rendering), universally
quantified since they are opaque to the layout. -/
structure GenParams where
  text : List Char
  textW : ℕ
  textH : ℕ
  textDescent : ℤ
  shadowColor : Option RGBColor
  shadowOffset : ℤ × ℤ
  padx : ℤ × ℤ
  pady : ℤ × ℤ
  padding : Option (ℤ × ℤ)
  aspectRatio : Option ℚ
  minSize : Option (ℤ × ℤ)
  baselineAlign : BaselineAlignment

/-- The effective text descent (lines 247-249): forced to 0 for
multi-line text. -/
def effDescent (p : GenParams) : ℤ :=
  if isMultilineOf p.text then 0 else p.textDescent

/-- The layout state just before the aspect-ratio step: base placement,
then shadow extension, then minimum size (lines 274-298). -/
def preFit (p : GenParams) : LayoutState :=
  let shadowOn := p.shadowColor.isSome
  let eo := effShadowOffset shadowOn p.shadowOffset
  let pads := effPads p.padx p.pady p.padding
  minSizeStep p.minSize (shadowStep shadowOn eo (baseState p.textW p.textH pads.1 pads.2))

/-- The complete layout of generate_text_image (lines 244-346): final
x, y, width, height. -/
def generateLayout (p : GenParams) : LayoutState :=
  let shadowOn := p.shadowColor.isSome
  let eo := effShadowOffset shadowOn p.shadowOffset
  let pads := effPads p.padx p.pady p.padding
  let s3 := aspectStep (deriveAspect p.aspectRatio p.minSize) (preFit p)
  baselineStep (isMultilineOf p.text) p.baselineAlign p.textH (effDescent p) pads.2 eo s3

/-- Variant of the complete layout using the spec's symmetric strict
minimum-height comparison, for the refinement claim. -/
def generateLayoutLt (p : GenParams) : LayoutState :=
  let shadowOn := p.shadowColor.isSome
  let eo := effShadowOffset shadowOn p.shadowOffset
  let pads := effPads p.padx p.pady p.padding
  let s2 := minSizeStepLt p.minSize (shadowStep shadowOn eo (baseState p.textW p.textH pads.1 pads.2))
  let s3 := aspectStep (deriveAspect p.aspectRatio p.minSize) s2
  baselineStep (isMultilineOf p.text) p.baselineAlign p.textH (effDescent p) pads.2 eo s3

/-- Where the shadow layer is composited (line 357): the text origin plus
the shadow offset. -/
def shadowPos (s : LayoutState) (eo : ℤ × ℤ) : ℤ × ℤ := (s.x + eo.1, s.y + eo.2)

/-- The observable placement output of generate_text_image: the layout
plus, when a shadow exists, the position the shadow is composited at
(lines 353-361). -/
def generateOutput (p : GenParams) : LayoutState × Option (ℤ × ℤ) :=
  let s := generateLayout p
  (s, if p.shadowColor.isSome then
        some (shadowPos s (effShadowOffset p.shadowColor.isSome p.shadowOffset))
      else Option.none)

/-- Concrete input exhibiting the aspect-ratio height shrink: a 5x7 text
image, no padding, no shadow, no minimum size, aspect ratio 5/2. -/
def cexAspect : GenParams :=
  ⟨['A'], 5, 7, 0, Option.none, (0, 0), (0, 0), (0, 0), Option.none,
   some (5 / 2 : ℚ), Option.none, BaselineAlignment.none⟩

/-- Concrete input sitting exactly at the minimum-height boundary: a 5x7
text image and min_size (5,7); the aspect ratio 0 disables fitting. -/
def pBoundary : GenParams :=
  ⟨['A'], 5, 7, 0, Option.none, (0, 0), (0, 0), (0, 0), Option.none,
   some (0 : ℚ), some (5, 7), BaselineAlignment.none⟩

theorem aux_baselineStep_xwh (ml : Bool) (ba : BaselineAlignment) (tH : ℕ)
    (d : ℤ) (py eo : ℤ × ℤ) (s : LayoutState) :
    (baselineStep ml ba tH d py eo s).x = s.x ∧
    (baselineStep ml ba tH d py eo s).width = s.width ∧
    (baselineStep ml ba tH d py eo s).height = s.height := by
  unfold baselineStep
  cases ml <;> cases ba <;> simp

theorem aux_baselineStep_multiline (ba : BaselineAlignment) (tH : ℕ)
    (d : ℤ) (py eo : ℤ × ℤ) (s : LayoutState) :
    baselineStep true ba tH d py eo s = s := by
  simp [baselineStep]

theorem aux_shadowStep_dims (b : Bool) (off : ℤ × ℤ) (s : LayoutState) :
    s.width ≤ (shadowStep b off s).width ∧ s.height ≤ (shadowStep b off s).height := by
  cases b
  · exact ⟨le_refl _, le_refl _⟩
  · unfold shadowStep
    split_ifs <;> (try simp) <;> omega

theorem aux_minSizeStep_dims (ms : Option (ℤ × ℤ)) (s : LayoutState) :
    s.width ≤ (minSizeStep ms s).width ∧ s.height ≤ (minSizeStep ms s).height := by
  rcases ms with _ | ⟨mw, mh⟩
  · exact ⟨le_refl _, le_refl _⟩
  · unfold minSizeStep
    dsimp only
    split_ifs <;> (try simp_all) <;> omega

theorem aux_aspectStep_nonpos (ar : ℚ) (s : LayoutState) (h : ar ≤ 0) :
    aspectStep (some ar) s = s := by
  simp [aspectStep, not_lt.mpr h]

theorem aux_deriveAspect_noMin (a : Option ℚ) : deriveAspect a Option.none = a := by
  cases a <;> rfl

theorem aux_shadowStep_off (off : ℤ × ℤ) (s : LayoutState) :
    shadowStep false off s = s := by
  simp [shadowStep]

/-- C3: with no shadow, no positive aspect ratio, no minimum size and
non-negative padding, the canvas is exactly the text image extended by
the padding and the text origin is exactly (padLeft, padTop), for every
baseline alignment mode. -/
theorem c3_exact_fit_no_constraints (p : GenParams)
    (hsh : p.shadowColor = Option.none)
    (har : ∀ ar ∈ p.aspectRatio, ar ≤ 0)
    (hmin : p.minSize = Option.none)
    (hpx1 : 0 ≤ (effPads p.padx p.pady p.padding).1.1)
    (hpx2 : 0 ≤ (effPads p.padx p.pady p.padding).1.2)
    (hpy1 : 0 ≤ (effPads p.padx p.pady p.padding).2.1)
    (hpy2 : 0 ≤ (effPads p.padx p.pady p.padding).2.2) :
    generateLayout p =
      ⟨(effPads p.padx p.pady p.padding).1.1,
       (effPads p.padx p.pady p.padding).2.1,
       (p.textW : ℤ) + (effPads p.padx p.pady p.padding).1.1 +
         (effPads p.padx p.pady p.padding).1.2,
       (p.textH : ℤ) + (effPads p.padx p.pady p.padding).2.1 +
         (effPads p.padx p.pady p.padding).2.2⟩ := by
  have hstep : aspectStep (deriveAspect p.aspectRatio p.minSize) (preFit p) = preFit p := by
    rw [hmin, aux_deriveAspect_noMin]
    cases hA : p.aspectRatio with
    | none => rfl
    | some ar => exact aux_aspectStep_nonpos ar _ (har ar (by simp [hA]))
  have hpre : preFit p = baseState p.textW p.textH (effPads p.padx p.pady p.padding).1
      (effPads p.padx p.pady p.padding).2 := by
    unfold preFit
    rw [hsh, hmin]
    simp [effShadowOffset, aux_shadowStep_off, minSizeStep]
  unfold generateLayout
  rw [hstep, hpre, hsh]
  rcases hE : effPads p.padx p.pady p.padding with ⟨⟨a, b⟩, c, d⟩
  rw [hE] at hpx1 hpx2 hpy1 hpy2
  simp only at hpx1 hpx2 hpy1 hpy2 ⊢
  unfold baselineStep baseState effShadowOffset
  cases isMultilineOf p.text <;> cases p.baselineAlign <;>
    · ext <;> simp <;> omega

/-- C4: with a shadow, the canvas is widened per axis by the shadow
offset (width grows by dx and, when dx is negative, x also shifts by
-dx, symmetrically in y: captured by x' = x - min 0 dx and
width' = width + |dx|); the shadow layer is composited at textOrigin +
shadowOffset; without a shadow the offset is treated as (0,0) and the
step changes nothing. -/
theorem c4_shadow_extension (off : ℤ × ℤ) (s : LayoutState) (p : GenParams)
    (c : RGBColor) (hc : p.shadowColor = some c) :
    (shadowStep true off s).x = s.x - min 0 off.1 ∧
    (shadowStep true off s).y = s.y - min 0 off.2 ∧
    (shadowStep true off s).width = s.width + |off.1| ∧
    (shadowStep true off s).height = s.height + |off.2| ∧
    shadowStep false off s = s ∧
    effShadowOffset false off = (0, 0) ∧
    (generateOutput p).2 = some ((generateLayout p).x + p.shadowOffset.1,
                                 (generateLayout p).y + p.shadowOffset.2) := by
  refine ⟨?_, ?_, ?_, ?_, aux_shadowStep_off off s, rfl, ?_⟩
  · unfold shadowStep
    split_ifs <;> (try simp) <;> omega
  · unfold shadowStep
    split_ifs <;> (try simp) <;> omega
  · rcases le_or_lt 0 off.1 with h1 | h1
    · rw [abs_of_nonneg h1]
      unfold shadowStep
      split_ifs <;> (try simp) <;> omega
    · rw [abs_of_neg h1]
      unfold shadowStep
      split_ifs <;> (try simp) <;> omega
  · rcases le_or_lt 0 off.2 with h2 | h2
    · rw [abs_of_nonneg h2]
      unfold shadowStep
      split_ifs <;> (try simp) <;> omega
    · rw [abs_of_neg h2]
      unfold shadowStep
      split_ifs <;> (try simp) <;> omega
  · simp [generateOutput, hc, shadowPos, effShadowOffset]

/-- Witness for c4_shadow_extension at a concrete offset (3,-2), state
(1,2,10,20) and a request with a black shadow. -/
def pShadow : GenParams :=
  ⟨['A'], 5, 7, 0, some (0, 0, 0), (3, -2), (0, 0), (0, 0), Option.none,
   Option.none, Option.none, BaselineAlignment.none⟩

theorem c4_shadow_extension_witness :
    (shadowStep true (3, -2) ⟨1, 2, 10, 20⟩).x = 1 - min 0 3 ∧
    (shadowStep true (3, -2) ⟨1, 2, 10, 20⟩).y = 2 - min 0 (-2) ∧
    (shadowStep true (3, -2) ⟨1, 2, 10, 20⟩).width = 10 + |(3 : ℤ)| ∧
    (shadowStep true (3, -2) ⟨1, 2, 10, 20⟩).height = 20 + |(-2 : ℤ)| ∧
    shadowStep false (3, -2) ⟨1, 2, 10, 20⟩ = ⟨1, 2, 10, 20⟩ ∧
    effShadowOffset false (3, -2) = (0, 0) ∧
    (generateOutput pShadow).2 = some ((generateLayout pShadow).x + pShadow.shadowOffset.1,
                                       (generateLayout pShadow).y + pShadow.shadowOffset.2) :=
  c4_shadow_extension (3, -2) ⟨1, 2, 10, 20⟩ pShadow (0, 0, 0) rfl

/-- C7: for multi-line text (text containing a newline) the effective
text descent is forced to 0 and the generated layout and output are
identical for every pair of baseline alignment modes. -/
theorem c7_multiline_ignores_baseline (p : GenParams) (h : '\n' ∈ p.text)
    (ba1 ba2 : BaselineAlignment) :
    generateLayout { p with baselineAlign := ba1 } =
      generateLayout { p with baselineAlign := ba2 } ∧
    generateOutput { p with baselineAlign := ba1 } =
      generateOutput { p with baselineAlign := ba2 } ∧
    effDescent p = 0 := by
  have hml : isMultilineOf p.text = true := by
    simp [isMultilineOf, h]
  have hlay : ∀ ba : BaselineAlignment,
      generateLayout { p with baselineAlign := ba } =
        aspectStep (deriveAspect p.aspectRatio p.minSize) (preFit p) := by
    intro ba
    unfold generateLayout
    simp only [preFit, hml, aux_baselineStep_multiline]
  refine ⟨?_, ?_, ?_⟩
  · rw [hlay ba1, hlay ba2]
  · unfold generateOutput
    rw [hlay ba1, hlay ba2]
  · simp [effDescent, hml]

/-- Witness for c7_multiline_ignores_baseline on the concrete two-line
text "a\nb" with the alignment modes none and perfect. -/
def pMulti : GenParams :=
  ⟨['a', '\n', 'b'], 9, 11, 4, Option.none, (0, 0), (1, 2), (3, 4), Option.none,
   Option.none, Option.none, BaselineAlignment.none⟩

theorem aux_pyint_eq_floor (q : ℚ) (h : 0 ≤ q) : pyint q = ⌊q⌋ := by
  unfold pyint
  rw [Rat.floor_def, Int.tdiv_eq_ediv (Rat.num_nonneg.mpr h) (by positivity)]

theorem aux_baselineStep_banone (ml : Bool) (tH : ℕ) (d : ℤ) (py eo : ℤ × ℤ)
    (s : LayoutState) :
    baselineStep ml BaselineAlignment.none tH d py eo s = s := by
  cases ml <;> rfl

theorem aux_cex_preFit : preFit cexAspect = ⟨0, 0, 5, 7⟩ := by
  simp only [preFit, cexAspect, effShadowOffset, effPads, baseState, shadowStep,
    minSizeStep, Option.isSome]
  norm_num

theorem aux_cex_layout : generateLayout cexAspect = ⟨6, -1, 17, 6⟩ := by
  have hdw : aspectDW (5 / 2) ⟨0, 0, 5, 7⟩ = 17 := by
    simp only [aspectDW, pyint]
    norm_num
    decide
  have hdh : aspectDH (5 / 2) ⟨0, 0, 5, 7⟩ = 7 := by
    simp only [aspectDH, pyint]
    norm_num
  have hasp : aspectStep (some (5 / 2)) ⟨0, 0, 5, 7⟩ = ⟨6, -1, 17, 6⟩ := by
    simp only [aspectStep, hdw, hdh]
    rw [if_pos (by norm_num : (0 : ℚ) < 5 / 2), if_pos (by norm_num : (7 : ℤ) < 17)]
    simp only [pyint]
    norm_num
    decide
  simp only [generateLayout]
  rw [show deriveAspect cexAspect.aspectRatio cexAspect.minSize = some (5 / 2 : ℚ) from rfl,
    aux_cex_preFit, hasp]
  exact aux_baselineStep_banone _ _ _ _ _ _

/-- C1 counterexample: on a 5x7 text image with zero (hence non-negative)
padding, no shadow, no minimum size and aspect ratio 5/2, the final
canvas height is 6, strictly below textHeight + padTop + padBottom = 7:
the claimed height invariant fails after layout. -/
theorem c1_counterexample :
    effPads cexAspect.padx cexAspect.pady cexAspect.padding = ((0, 0), (0, 0)) ∧
    cexAspect.shadowColor = Option.none ∧
    generateLayout cexAspect = ⟨6, -1, 17, 6⟩ ∧
    ¬ ((cexAspect.textH : ℤ) + (effPads cexAspect.padx cexAspect.pady cexAspect.padding).2.1 +
         (effPads cexAspect.padx cexAspect.pady cexAspect.padding).2.2 ≤
       (generateLayout cexAspect).height) := by
  refine ⟨rfl, rfl, aux_cex_layout, ?_⟩
  rw [aux_cex_layout]
  decide

/-- C1 amended: with non-negative padding the invariants
canvasWidth ≥ textWidth + padLeft + padRight (and the height analogue,
shadow extension included) hold for the layout state reached after the
base, shadow and minimum-size steps; they continue to hold in the final
layout whenever the aspect-ratio fitting step does not run (ratio unset
or ≤ 0).  The aspect-ratio step itself can break them (c1_counterexample). -/
theorem c1_amended_invariant (p : GenParams)
    (hpx1 : 0 ≤ (effPads p.padx p.pady p.padding).1.1)
    (hpx2 : 0 ≤ (effPads p.padx p.pady p.padding).1.2)
    (hpy1 : 0 ≤ (effPads p.padx p.pady p.padding).2.1)
    (hpy2 : 0 ≤ (effPads p.padx p.pady p.padding).2.2) :
    ((p.textW : ℤ) + (effPads p.padx p.pady p.padding).1.1 +
        (effPads p.padx p.pady p.padding).1.2 ≤ (preFit p).width ∧
     (p.textH : ℤ) + (effPads p.padx p.pady p.padding).2.1 +
        (effPads p.padx p.pady p.padding).2.2 ≤ (preFit p).height) ∧
    ((∀ ar ∈ deriveAspect p.aspectRatio p.minSize, ar ≤ 0) →
      (p.textW : ℤ) + (effPads p.padx p.pady p.padding).1.1 +
        (effPads p.padx p.pady p.padding).1.2 ≤ (generateLayout p).width ∧
      (p.textH : ℤ) + (effPads p.padx p.pady p.padding).2.1 +
        (effPads p.padx p.pady p.padding).2.2 ≤ (generateLayout p).height) := by
  have hbw : (baseState p.textW p.textH (effPads p.padx p.pady p.padding).1
      (effPads p.padx p.pady p.padding).2).width
      = (p.textW : ℤ) + (effPads p.padx p.pady p.padding).1.1 +
        (effPads p.padx p.pady p.padding).1.2 := rfl
  have hbh : (baseState p.textW p.textH (effPads p.padx p.pady p.padding).1
      (effPads p.padx p.pady p.padding).2).height
      = (p.textH : ℤ) + (effPads p.padx p.pady p.padding).2.1 +
        (effPads p.padx p.pady p.padding).2.2 := rfl
  obtain ⟨hsd1, hsd2⟩ := aux_shadowStep_dims p.shadowColor.isSome
    (effShadowOffset p.shadowColor.isSome p.shadowOffset)
    (baseState p.textW p.textH (effPads p.padx p.pady p.padding).1
      (effPads p.padx p.pady p.padding).2)
  obtain ⟨hmd1, hmd2⟩ := aux_minSizeStep_dims p.minSize
    (shadowStep p.shadowColor.isSome (effShadowOffset p.shadowColor.isSome p.shadowOffset)
      (baseState p.textW p.textH (effPads p.padx p.pady p.padding).1
        (effPads p.padx p.pady p.padding).2))
  have hpre : (p.textW : ℤ) + (effPads p.padx p.pady p.padding).1.1 +
        (effPads p.padx p.pady p.padding).1.2 ≤ (preFit p).width ∧
      (p.textH : ℤ) + (effPads p.padx p.pady p.padding).2.1 +
        (effPads p.padx p.pady p.padding).2.2 ≤ (preFit p).height := by
    simp only [preFit]
    omega
  refine ⟨hpre, ?_⟩
  intro har
  have hstep : aspectStep (deriveAspect p.aspectRatio p.minSize) (preFit p) = preFit p := by
    cases hA : deriveAspect p.aspectRatio p.minSize with
    | none => rfl
    | some ar => exact aux_aspectStep_nonpos ar _ (har ar (by simp [hA]))
  obtain ⟨hblx, hblw, hblh⟩ := aux_baselineStep_xwh (isMultilineOf p.text) p.baselineAlign
    p.textH (effDescent p) (effPads p.padx p.pady p.padding).2
    (effShadowOffset p.shadowColor.isSome p.shadowOffset)
    (aspectStep (deriveAspect p.aspectRatio p.minSize) (preFit p))
  simp only [generateLayout]
  rw [hblw, hblh, hstep]
  exact hpre

/-- Witness for c1_amended_invariant at the concrete request pMulti
(5x7 text, padding (1,2)x(3,4), no shadow, no constraints). -/
theorem c1_amended_invariant_witness :
    0 ≤ (effPads pMulti.padx pMulti.pady pMulti.padding).1.1 ∧
    0 ≤ (effPads pMulti.padx pMulti.pady pMulti.padding).1.2 ∧
    0 ≤ (effPads pMulti.padx pMulti.pady pMulti.padding).2.1 ∧
    0 ≤ (effPads pMulti.padx pMulti.pady pMulti.padding).2.2 ∧
    (((pMulti.textW : ℤ) + (effPads pMulti.padx pMulti.pady pMulti.padding).1.1 +
        (effPads pMulti.padx pMulti.pady pMulti.padding).1.2 ≤ (preFit pMulti).width ∧
      (pMulti.textH : ℤ) + (effPads pMulti.padx pMulti.pady pMulti.padding).2.1 +
        (effPads pMulti.padx pMulti.pady pMulti.padding).2.2 ≤ (preFit pMulti).height) ∧
     ((∀ ar ∈ deriveAspect pMulti.aspectRatio pMulti.minSize, ar ≤ 0) →
       (pMulti.textW : ℤ) + (effPads pMulti.padx pMulti.pady pMulti.padding).1.1 +
         (effPads pMulti.padx pMulti.pady pMulti.padding).1.2 ≤ (generateLayout pMulti).width ∧
       (pMulti.textH : ℤ) + (effPads pMulti.padx pMulti.pady pMulti.padding).2.1 +
         (effPads pMulti.padx pMulti.pady pMulti.padding).2.2 ≤ (generateLayout pMulti).height)) :=
  ⟨by decide, by decide, by decide, by decide,
   c1_amended_invariant pMulti (by decide) (by decide) (by decide) (by decide)⟩

/-- C2 counterexample: with aspect ratio 5/2 on the pre-fit state
(0,0,5,7), the fitting step runs and the final canvas height 6 is
strictly below its pre-fit value 7, refuting the claim that both final
dimensions are ≥ their values immediately before the fitting step. -/
theorem c2_counterexample :
    deriveAspect cexAspect.aspectRatio cexAspect.minSize = some (5 / 2 : ℚ) ∧
    (0 : ℚ) < 5 / 2 ∧
    preFit cexAspect = ⟨0, 0, 5, 7⟩ ∧
    generateLayout cexAspect = ⟨6, -1, 17, 6⟩ ∧
    (generateLayout cexAspect).height < (preFit cexAspect).height := by
  refine ⟨rfl, by norm_num, aux_cex_preFit, aux_cex_layout, ?_⟩
  rw [aux_cex_preFit, aux_cex_layout]
  decide

/-- C2 amended: whenever aspect-ratio fitting runs (ratio set and > 0),
exactly one of its two branches executes (first branch exactly when
desiredHeight < desiredWidth), and the dimension targeted by the chosen
branch ends ≥ its pre-fit value; the other dimension is recomputed from
the ratio by truncation and may end below its pre-fit value
(c2_counterexample). -/
theorem c2_amended_one_branch (ar : ℚ) (s : LayoutState) (h : 0 < ar) :
    (aspectDH ar s < aspectDW ar s ∧
       (aspectStep (some ar) s).width = aspectDW ar s ∧
       s.width ≤ (aspectStep (some ar) s).width ∧
       (aspectStep (some ar) s).height = pyint ((aspectDW ar s : ℚ) / ar)) ∨
    (aspectDW ar s ≤ aspectDH ar s ∧
       (aspectStep (some ar) s).height = aspectDH ar s ∧
       s.height ≤ (aspectStep (some ar) s).height ∧
       (aspectStep (some ar) s).width = pyint ((aspectDH ar s : ℚ) * ar)) := by
  by_cases hlt : aspectDH ar s < aspectDW ar s
  · left
    have hw : (aspectStep (some ar) s).width = aspectDW ar s := by
      simp only [aspectStep]
      rw [if_pos h, if_pos hlt]
    have hh : (aspectStep (some ar) s).height = pyint ((aspectDW ar s : ℚ) / ar) := by
      simp only [aspectStep]
      rw [if_pos h, if_pos hlt]
    refine ⟨hlt, hw, ?_, hh⟩
    rw [hw]
    simp only [aspectDW]
    exact le_max_right _ _
  · right
    have hh : (aspectStep (some ar) s).height = aspectDH ar s := by
      simp only [aspectStep]
      rw [if_pos h, if_neg hlt]
    have hw : (aspectStep (some ar) s).width = pyint ((aspectDH ar s : ℚ) * ar) := by
      simp only [aspectStep]
      rw [if_pos h, if_neg hlt]
    refine ⟨le_of_not_lt hlt, hh, ?_, hw⟩
    rw [hh]
    simp only [aspectDH]
    exact le_max_right _ _

/-- Witness for c2_amended_one_branch at aspect ratio 5/2 and pre-fit
state (0,0,5,7). -/
theorem c2_amended_one_branch_witness :
    (0 : ℚ) < 5 / 2 ∧
    ((aspectDH (5 / 2) ⟨0, 0, 5, 7⟩ < aspectDW (5 / 2) ⟨0, 0, 5, 7⟩ ∧
        (aspectStep (some (5 / 2)) ⟨0, 0, 5, 7⟩).width = aspectDW (5 / 2) ⟨0, 0, 5, 7⟩ ∧
        (5 : ℤ) ≤ (aspectStep (some (5 / 2)) ⟨0, 0, 5, 7⟩).width ∧
        (aspectStep (some (5 / 2)) ⟨0, 0, 5, 7⟩).height =
          pyint ((aspectDW (5 / 2) ⟨0, 0, 5, 7⟩ : ℚ) / (5 / 2))) ∨
     (aspectDW (5 / 2) ⟨0, 0, 5, 7⟩ ≤ aspectDH (5 / 2) ⟨0, 0, 5, 7⟩ ∧
        (aspectStep (some (5 / 2)) ⟨0, 0, 5, 7⟩).height = aspectDH (5 / 2) ⟨0, 0, 5, 7⟩ ∧
        (7 : ℤ) ≤ (aspectStep (some (5 / 2)) ⟨0, 0, 5, 7⟩).height ∧
        (aspectStep (some (5 / 2)) ⟨0, 0, 5, 7⟩).width =
          pyint ((aspectDH (5 / 2) ⟨0, 0, 5, 7⟩ : ℚ) * (5 / 2)))) :=
  ⟨by norm_num, c2_amended_one_branch (5 / 2) ⟨0, 0, 5, 7⟩ (by norm_num)⟩

theorem aux_minSizeStep_eq_lt (ms : Option (ℤ × ℤ)) (s : LayoutState) :
    minSizeStep ms s = minSizeStepLt ms s := by
  rcases ms with _ | ⟨mw, mh⟩
  · rfl
  · unfold minSizeStep minSizeStepLt
    dsimp only
    by_cases hlt : (if s.width < mw then
        { s with x := s.x + (mw - s.width).fdiv 2, width := mw } else s).height < mh
    · rw [if_pos (le_of_lt hlt), if_pos hlt]
    · by_cases heq : (if s.width < mw then
          { s with x := s.x + (mw - s.width).fdiv 2, width := mw } else s).height = mh
      · rw [if_pos (le_of_eq heq), if_neg hlt, ← heq]
        simp only [sub_self]
        rw [show Int.fdiv 0 2 = 0 from rfl, add_zero]
      · rw [if_neg (by omega), if_neg hlt]

/-- C6 counterexample: a concrete input reaching the minimum-size step
exactly at the boundary (height 7, minHeight 7): the layout computed
with the source's asymmetric check (height ≤ minHeight) and the layout
computed with the symmetric check (height < minHeight) give the same
output, so the asymmetry is unobservable at this boundary input. -/
theorem c6_counterexample :
    baseState pBoundary.textW pBoundary.textH (0, 0) (0, 0) = ⟨0, 0, 5, 7⟩ ∧
    pBoundary.minSize = some (5, 7) ∧
    generateLayout pBoundary = ⟨0, 0, 5, 7⟩ ∧
    generateLayoutLt pBoundary = ⟨0, 0, 5, 7⟩ := by
  have hlay : generateLayout pBoundary = ⟨0, 0, 5, 7⟩ := by
    have hpre : preFit pBoundary = ⟨0, 0, 5, 7⟩ := by
      simp only [preFit, pBoundary, effShadowOffset, effPads, baseState, shadowStep,
        Option.isSome]
      decide
    simp only [generateLayout]
    rw [show deriveAspect pBoundary.aspectRatio pBoundary.minSize = some (0 : ℚ) from rfl,
      hpre, aux_aspectStep_nonpos 0 _ le_rfl]
    exact aux_baselineStep_banone _ _ _ _ _ _
  have hlt : generateLayoutLt pBoundary = generateLayout pBoundary := by
    simp only [generateLayout, generateLayoutLt, preFit, aux_minSizeStep_eq_lt]
  exact ⟨by decide, rfl, hlay, by rw [hlt, hlay]⟩

/-- C6 amended: the source's asymmetric minimum-size comparison
(height ≤ minHeight, width < minWidth) produces a layout identical to
the symmetric variant (height < minHeight) for every input: at the
boundary height = minHeight the ≤-branch adds (minHeight - height)
fdiv 2 = 0 to y and reassigns height to its current value, a no-op, so
the asymmetry never changes observable output. -/
theorem c6_amended_le_equals_lt (p : GenParams) :
    generateLayout p = generateLayoutLt p := by
  simp only [generateLayout, generateLayoutLt, preFit, aux_minSizeStep_eq_lt]

/-- Witness for c3_exact_fit_no_constraints at a concrete single-line
request with padding (1,2)x(3,4) and baseline mode perfect. -/
def pPlain : GenParams :=
  ⟨['h', 'i'], 5, 7, 2, Option.none, (0, 0), (1, 2), (3, 4), Option.none,
   Option.none, Option.none, BaselineAlignment.perfect⟩

theorem c3_exact_fit_no_constraints_witness :
    pPlain.shadowColor = Option.none ∧
    (∀ ar ∈ pPlain.aspectRatio, ar ≤ 0) ∧
    pPlain.minSize = Option.none ∧
    0 ≤ (effPads pPlain.padx pPlain.pady pPlain.padding).1.1 ∧
    0 ≤ (effPads pPlain.padx pPlain.pady pPlain.padding).1.2 ∧
    0 ≤ (effPads pPlain.padx pPlain.pady pPlain.padding).2.1 ∧
    0 ≤ (effPads pPlain.padx pPlain.pady pPlain.padding).2.2 ∧
    generateLayout pPlain =
      ⟨(effPads pPlain.padx pPlain.pady pPlain.padding).1.1,
       (effPads pPlain.padx pPlain.pady pPlain.padding).2.1,
       (pPlain.textW : ℤ) + (effPads pPlain.padx pPlain.pady pPlain.padding).1.1 +
         (effPads pPlain.padx pPlain.pady pPlain.padding).1.2,
       (pPlain.textH : ℤ) + (effPads pPlain.padx pPlain.pady pPlain.padding).2.1 +
         (effPads pPlain.padx pPlain.pady pPlain.padding).2.2⟩ :=
  ⟨rfl, by simp [pPlain], rfl, by decide, by decide, by decide, by decide,
   c3_exact_fit_no_constraints pPlain rfl (by simp [pPlain]) rfl
     (by decide) (by decide) (by decide) (by decide)⟩

theorem c7_multiline_ignores_baseline_witness :
    '\n' ∈ pMulti.text ∧
    (generateLayout { pMulti with baselineAlign := BaselineAlignment.none } =
       generateLayout { pMulti with baselineAlign := BaselineAlignment.perfect } ∧
     generateOutput { pMulti with baselineAlign := BaselineAlignment.none } =
       generateOutput { pMulti with baselineAlign := BaselineAlignment.perfect } ∧
     effDescent pMulti = 0) :=
  ⟨by decide, c7_multiline_ignores_baseline pMulti (by decide)
    BaselineAlignment.none BaselineAlignment.perfect⟩

end Text2Image

namespace Text2Image

/-- C8 counterexample: converting 2 points gives int(2*96/72) = 2, while
round(2*96/72) = 3: the conversion truncates, it does not round. -/
theorem c8_counterexample :
    any_measure_type (MeasureArg.ptOf 2) = 2 ∧
    round ((2 : ℚ) * (96 / 72)) = 3 ∧
    ¬ (any_measure_type (MeasureArg.ptOf 2) = round ((2 : ℚ) * (96 / 72))) := by
  have h1 : any_measure_type (MeasureArg.ptOf 2) = 2 := by
    show pyint ((2 : ℚ) * (96 / 72)) = 2
    unfold pyint
    norm_num
    decide
  have h2 : round ((2 : ℚ) * (96 / 72)) = 3 := by
    rw [show (2 : ℚ) * (96 / 72) = 8 / 3 by norm_num, round_eq]
    rw [show (8 / 3 + 1 / 2 : ℚ) = ((19 : ℤ) : ℚ) / ((6 : ℕ) : ℚ) by norm_num]
    rw [Rat.floor_intCast_div_natCast]
    decide
  refine ⟨h1, h2, ?_⟩
  rw [h1, h2]
  decide

/-- C8 amended: for every non-negative point value p, the conversion to
pixels returns the truncation (floor) of p*96/72, equal to the integer
division (4*p)/3; it is bounded by round(p*96/72) but differs from it
whenever the fractional part is at least one half (c8_counterexample). -/
theorem c8_amended_pt_truncates (x : ℤ) (h : 0 ≤ x) :
    any_measure_type (MeasureArg.ptOf x) = ⌊(x : ℚ) * (96 / 72)⌋ ∧
    any_measure_type (MeasureArg.ptOf x) = (4 * x) / 3 ∧
    any_measure_type (MeasureArg.ptOf x) ≤ round ((x : ℚ) * (96 / 72)) := by
  have h1 : any_measure_type (MeasureArg.ptOf x) = ⌊(x : ℚ) * (96 / 72)⌋ := by
    show pt x = ⌊(x : ℚ) * (96 / 72)⌋
    unfold pt
    exact aux_pyint_eq_floor _ (mul_nonneg (by exact_mod_cast h) (by norm_num))
  have h2 : ⌊(x : ℚ) * (96 / 72)⌋ = (4 * x) / 3 := by
    rw [show (x : ℚ) * (96 / 72) = ((4 * x : ℤ) : ℚ) / ((3 : ℕ) : ℚ) by push_cast; ring]
    rw [Rat.floor_intCast_div_natCast]
    norm_num
  refine ⟨h1, h1.trans h2, ?_⟩
  rw [h1, round_eq]
  exact Int.floor_mono (by linarith)

/-- Witness for c8_amended_pt_truncates at p = 2. -/
theorem c8_amended_pt_truncates_witness :
    (0 : ℤ) ≤ 2 ∧
    (any_measure_type (MeasureArg.ptOf 2) = ⌊(2 : ℚ) * (96 / 72)⌋ ∧
     any_measure_type (MeasureArg.ptOf 2) = (4 * 2) / 3 ∧
     any_measure_type (MeasureArg.ptOf 2) ≤ round ((2 : ℚ) * (96 / 72))) :=
  ⟨by decide, c8_amended_pt_truncates 2 (by decide)⟩

/-- C9 counterexample: the configuration parser accepts the aspect ratio
"0" and returns 0.0 without raising, refuting the claim that a zero
aspect ratio is rejected with an error at configuration-parse time. -/
theorem c9_counterexample : ratio_type [(0 : ℚ)] = Except.ok 0 := rfl

/-- C9 amended: a ratio with zero denominator is rejected with an error
at configuration-parse time, but the ratio "0" parses successfully to
0.0; the layout engine itself never raises for a degenerate ratio: the
aspect-ratio step leaves the layout unchanged for every ratio ≤ 0 and
for an unset ratio (fit-to-content). -/
theorem c9_amended_degenerate_ratio (a ar : ℚ) (s : LayoutState) (h : ar ≤ 0) :
    ratio_type [(0 : ℚ)] = Except.ok 0 ∧
    ratio_type [a, 0] = Except.error "Ratio has division by 0." ∧
    aspectStep (some ar) s = s ∧
    aspectStep Option.none s = s :=
  ⟨rfl, by simp [ratio_type], aux_aspectStep_nonpos ar s h, rfl⟩

/-- Witness for c9_amended_degenerate_ratio with numerator 1, ratio 0 and
the zero layout state. -/
theorem c9_amended_degenerate_ratio_witness :
    (0 : ℚ) ≤ 0 ∧
    (ratio_type [(0 : ℚ)] = Except.ok 0 ∧
     ratio_type [(1 : ℚ), 0] = Except.error "Ratio has division by 0." ∧
     aspectStep (some (0 : ℚ)) ⟨0, 0, 0, 0⟩ = ⟨0, 0, 0, 0⟩ ∧
     aspectStep Option.none ⟨0, 0, 0, 0⟩ = ⟨0, 0, 0, 0⟩) :=
  ⟨le_refl 0, c9_amended_degenerate_ratio 1 0 ⟨0, 0, 0, 0⟩ (le_refl 0)⟩

theorem aux_clip_scale (cc ss : ℕ) :
    clip8 (pyint ((cc : ℚ) * ((ss : ℚ) / 255))) = min 255 (cc * ss / 255) := by
  rw [aux_pyint_eq_floor _ (by positivity)]
  rw [show (cc : ℚ) * ((ss : ℚ) / 255) = ((cc * ss : ℕ) : ℚ) / ((255 : ℕ) : ℚ) by
    push_cast; ring]
  rw [Rat.floor_natCast_div_natCast]
  unfold clip8
  omega

theorem aux_colorizePixel_eq (c : RGBColor) (p : Pixel) :
    colorizePixel c p = ⟨min 255 (c.1 * (p.r + p.g + p.b) / 255),
                         min 255 (c.2.1 * (p.r + p.g + p.b) / 255),
                         min 255 (c.2.2 * (p.r + p.g + p.b) / 255),
                         min p.a 255⟩ := by
  have hsum : ((p.r : ℚ) + p.g + p.b) = ((p.r + p.g + p.b : ℕ) : ℚ) := by
    push_cast
    ring
  unfold colorizePixel storePixel colorizedInk
  dsimp only
  rw [hsum]
  congr 1
  · exact aux_clip_scale c.1 (p.r + p.g + p.b)
  · exact aux_clip_scale c.2.1 (p.r + p.g + p.b)
  · exact aux_clip_scale c.2.2 (p.r + p.g + p.b)
  · unfold clip8
    omega

/-- C5: blend-mode shadow colorization computes the factor
f = (r+g+b)/255 and stores, for each channel, the shadow color channel
scaled by f, truncated and clamped to [0,255] (the clamp happens in the
pixel store), preserving the pixel's alpha; on a fully white pixel with
shadow color (100,100,100) the raw scaled value is 300 per channel and
the stored pixel is (255,255,255,255), not (300,300,300,255). -/
theorem c5_colorize_blend_clamped (c : RGBColor) (p : Pixel) (ha : p.a ≤ 255) :
    (colorizePixel c p).r = min 255 (c.1 * (p.r + p.g + p.b) / 255) ∧
    (colorizePixel c p).g = min 255 (c.2.1 * (p.r + p.g + p.b) / 255) ∧
    (colorizePixel c p).b = min 255 (c.2.2 * (p.r + p.g + p.b) / 255) ∧
    (colorizePixel c p).r ≤ 255 ∧
    (colorizePixel c p).g ≤ 255 ∧
    (colorizePixel c p).b ≤ 255 ∧
    (colorizePixel c p).a = p.a ∧
    colorizePixel (100, 100, 100) ⟨255, 255, 255, 255⟩ = ⟨255, 255, 255, 255⟩ ∧
    colorizedInk (100, 100, 100) ⟨255, 255, 255, 255⟩ = (300, 300, 300, 255) := by
  have hwhite : colorizePixel (100, 100, 100) ⟨255, 255, 255, 255⟩ = ⟨255, 255, 255, 255⟩ := by
    rw [aux_colorizePixel_eq]
    decide
  have hink : colorizedInk (100, 100, 100) ⟨255, 255, 255, 255⟩ = (300, 300, 300, 255) := by
    unfold colorizedInk pyint
    norm_num
  have halpha : (colorizePixel c p).a = p.a := by
    rw [aux_colorizePixel_eq]
    show min p.a 255 = p.a
    omega
  rw [aux_colorizePixel_eq]
  exact ⟨rfl, rfl, rfl, min_le_left _ _, min_le_left _ _, min_le_left _ _,
    (aux_colorizePixel_eq c p) ▸ halpha, hwhite, hink⟩

/-- Witness for c5_colorize_blend_clamped at shadow color (1,2,3) and
pixel (10,20,30,40). -/
theorem c5_colorize_blend_clamped_witness :
    (10 : ℕ) + 30 ≤ 255 ∧
    ((colorizePixel (1, 2, 3) ⟨10, 20, 30, 40⟩).r = min 255 (1 * (10 + 20 + 30) / 255) ∧
     (colorizePixel (1, 2, 3) ⟨10, 20, 30, 40⟩).g = min 255 (2 * (10 + 20 + 30) / 255) ∧
     (colorizePixel (1, 2, 3) ⟨10, 20, 30, 40⟩).b = min 255 (3 * (10 + 20 + 30) / 255) ∧
     (colorizePixel (1, 2, 3) ⟨10, 20, 30, 40⟩).r ≤ 255 ∧
     (colorizePixel (1, 2, 3) ⟨10, 20, 30, 40⟩).g ≤ 255 ∧
     (colorizePixel (1, 2, 3) ⟨10, 20, 30, 40⟩).b ≤ 255 ∧
     (colorizePixel (1, 2, 3) ⟨10, 20, 30, 40⟩).a = 40 ∧
     colorizePixel (100, 100, 100) ⟨255, 255, 255, 255⟩ = ⟨255, 255, 255, 255⟩ ∧
     colorizedInk (100, 100, 100) ⟨255, 255, 255, 255⟩ = (300, 300, 300, 255)) :=
  ⟨by decide, c5_colorize_blend_clamped (1, 2, 3) ⟨10, 20, 30, 40⟩ (by decide)⟩

/-- A heap of image buffers addressed by index, modelling the Pillow
image objects live during generate_text_image. -/
structure Heap where
  bufs : List Img

/-- Reading the contents of the buffer at an address. -/
def Heap.get (h : Heap) (a : ℕ) : Img := h.bufs.getD a []

/-- Overwriting the contents of the buffer at an address. -/
def Heap.put (h : Heap) (a : ℕ) (img : Img) : Heap := ⟨h.bufs.set a img⟩

/-- Image.copy() (line 255): allocates a fresh buffer holding the same
contents as the source buffer and returns its address. -/
def copyAlloc (h : Heap) (a : ℕ) : Heap × ℕ := (⟨h.bufs ++ [h.get a]⟩, h.bufs.length)

/-- colorize_image's heap effect (lines 90-103): the pixel loop mutates
the buffer at the given address in place and the function returns its
argument, i.e. the same address. -/
def colorizeInPlace (h : Heap) (a : ℕ) (c : RGBColor) : Heap × ℕ :=
  (h.put a (colorize_image c (h.get a)), a)

/-- Line 255: shadow = colorize_image(text_image.copy(), shadow_color). -/
def makeBlendShadow (h : Heap) (textA : ℕ) (c : RGBColor) : Heap × ℕ :=
  let hc := copyAlloc h textA
  colorizeInPlace hc.1 hc.2 c

/-- C10: creating a blend-mode shadow leaves the primary text buffer
unchanged: colorize_image mutates its argument in place and returns it
(last two conjuncts), but generate_text_image applies it to a fresh copy
of the text image, so the shadow lands in a distinct buffer holding the
colorized contents while the text buffer keeps its original contents. -/
theorem c10_blend_shadow_preserves_text (h : Heap) (textA : ℕ) (c : RGBColor)
    (hv : textA < h.bufs.length) :
    (makeBlendShadow h textA c).2 ≠ textA ∧
    (makeBlendShadow h textA c).1.get textA = h.get textA ∧
    (makeBlendShadow h textA c).1.get (makeBlendShadow h textA c).2 =
      colorize_image c (h.get textA) ∧
    (colorizeInPlace h textA c).2 = textA ∧
    (colorizeInPlace h textA c).1.get textA = colorize_image c (h.get textA) := by
  have hcopy : (h.bufs ++ [h.get textA]).getD h.bufs.length [] = h.get textA := by
    rw [List.getD_eq_getElem?_getD, List.getElem?_concat_length]
    rfl
  refine ⟨ne_of_gt hv, ?_, ?_, rfl, ?_⟩
  · show ((h.bufs ++ [h.get textA]).set h.bufs.length _).getD textA [] = h.get textA
    rw [List.getD_eq_getElem?_getD, List.getElem?_set_ne (by omega),
      List.getElem?_append_left hv, ← List.getD_eq_getElem?_getD]
    rfl
  · show ((h.bufs ++ [h.get textA]).set h.bufs.length
        (colorize_image c ((h.bufs ++ [h.get textA]).getD h.bufs.length []))).getD
          h.bufs.length [] = colorize_image c (h.get textA)
    rw [hcopy, List.getD_eq_getElem?_getD, List.getElem?_set_self',
      List.getElem?_concat_length]
    rfl
  · show (h.bufs.set textA (colorize_image c (h.get textA))).getD textA [] =
      colorize_image c (h.get textA)
    rw [List.getD_eq_getElem?_getD, List.getElem?_set_eq_of_lt _ hv]
    rfl

/-- Concrete one-buffer heap holding a single 1x1 image. -/
def heapW : Heap := ⟨[[[⟨10, 20, 30, 40⟩]]]⟩

/-- Witness for c10_blend_shadow_preserves_text on heapW. -/
theorem c10_blend_shadow_preserves_text_witness :
    0 < heapW.bufs.length ∧
    ((makeBlendShadow heapW 0 (100, 100, 100)).2 ≠ 0 ∧
     (makeBlendShadow heapW 0 (100, 100, 100)).1.get 0 = heapW.get 0 ∧
     (makeBlendShadow heapW 0 (100, 100, 100)).1.get
        (makeBlendShadow heapW 0 (100, 100, 100)).2 =
       colorize_image (100, 100, 100) (heapW.get 0) ∧
     (colorizeInPlace heapW 0 (100, 100, 100)).2 = 0 ∧
     (colorizeInPlace heapW 0 (100, 100, 100)).1.get 0 =
       colorize_image (100, 100, 100) (heapW.get 0)) :=
  ⟨by decide, c10_blend_shadow_preserves_text heapW 0 (100, 100, 100) (by decide)⟩

end Text2Image
